import Mathlib

/-!
Verification of the PV data-source core (`psp/data/data_sources/pv.py`).

Shallow embedding conventions:
* `Timestamp` is modelled as `Int` (seconds since the epoch; Python
  `datetime.timedelta(minutes=m)` is `60 * m` seconds,
  `datetime.timedelta(seconds=1)` is `1`).  `Timestamp | None` is `Option Int`.
* An xarray `Dataset` is modelled by its coordinates: a finite association
  list from coordinate name to coordinate values.  Values are either a list
  of strings (the id coordinate after `astype(str)`) or a list of integers
  (the timestamp coordinate).  The measurement variables are opaque to the
  code under study (it only ever indexes by id and timestamp), so the
  embedding keeps only the two index coordinates.
* `Dataset.sel(pv_id=ids, ts=slice(a, b))` on a monotonic timestamp index
  selects exactly the requested ids (raising a `KeyError` naming the ids
  missing from the index) and the timestamps `t` with `a ≤ t ≤ b`, each
  bound dropped when `None`; this is modelled by an explicit membership
  check returning `Except` and a filter over the timestamp coordinate.
* The filesystem is an explicit parameter `fs : String → XrDataset` giving
  the (already parsed) content of the netcdf file at each path.
-/

/-- Values of one xarray coordinate: either strings (ids) or ints (timestamps). -/
inductive CoordVals where
  | strs : List String → CoordVals
  | ints : List Int → CoordVals
deriving DecidableEq

/-- An xarray dataset, reduced to its named index coordinates. -/
structure XrDataset where
  coords : List (String × CoordVals)
deriving DecidableEq

/-- `min_timestamp` from pv.py: minimum of two optional timestamps, where
`None` is treated as greater than everything. -/
def min_timestamp (a : Option Int) (b : Option Int) : Option Int :=
  match a with
  | none =>
    match b with
    | none => none
    | some b' => some b'
  | some a' =>
    match b with
    | none => some a'
    | some b' => some (min a' b')

/-- Python dict update `base.update(upd)`: entries of `upd` override `base`. -/
def dictUpdate (base upd : List (String × String)) : List (String × String) :=
  base.filter (fun p => (upd.lookup p.1).isNone) ++ upd

/-- The rename map built in `NetcdfPvDataSource._open`: the physical id and
timestamp dimension names are mapped to "pv_id" / "ts" only when they differ,
then the user-supplied rename table is merged in (overriding on conflict). -/
def buildRenameMap (id_dim_name timestamp_dim_name : String)
    (rename : List (String × String)) : List (String × String) :=
  dictUpdate
    ((if id_dim_name ≠ "pv_id" then [(id_dim_name, "pv_id")] else []) ++
      (if timestamp_dim_name ≠ "ts" then [(timestamp_dim_name, "ts")] else []))
    rename

/-- Apply a rename map to one coordinate name (identity when absent). -/
def applyRename (m : List (String × String)) (n : String) : String :=
  match m.lookup n with
  | some n' => n'
  | none => n

/-- `Dataset.rename(rename_map)`: rename the coordinates. -/
def renameCoords (m : List (String × String)) (d : XrDataset) : XrDataset :=
  ⟨d.coords.map (fun p => (applyRename m p.1, p.2))⟩

/-- `astype(str)` on coordinate values. -/
def astypeStr (v : CoordVals) : CoordVals :=
  match v with
  | .strs s => .strs s
  | .ints l => .strs (l.map toString)

/-- `self._data.coords["pv_id"] = self._data.coords["pv_id"].astype(str)`. -/
def setAstypeStr (name : String) (d : XrDataset) : XrDataset :=
  ⟨d.coords.map (fun p => if p.1 = name then (p.1, astypeStr p.2) else p)⟩

/-- The string values of a named coordinate (ids are read post-`astype(str)`). -/
def XrDataset.coordStrs (d : XrDataset) (name : String) : List String :=
  match d.coords.lookup name with
  | some (.strs s) => s
  | some (.ints l) => l.map toString
  | none => []

/-- The integer values of a named coordinate (the timestamp axis). -/
def XrDataset.coordInts (d : XrDataset) (name : String) : List Int :=
  match d.coords.lookup name with
  | some (.ints l) => l
  | _ => []

/-- `NetcdfPvDataSource._open`: open the file at the stored path, rename the
dimensions via the built rename map, and canonicalize the id coordinate to
strings. -/
def openData (fs : String → XrDataset) (path timestamp_dim_name id_dim_name : String)
    (rename : List (String × String)) : XrDataset :=
  setAstypeStr "pv_id"
    (renameCoords (buildRenameMap id_dim_name timestamp_dim_name rename) (fs path))

/-- The state of a `NetcdfPvDataSource` instance.  `_max_ts` is the cutoff
set by `without_future` (`None` after construction). -/
structure NetcdfPvDataSource where
  path : String
  timestamp_dim_name : String
  id_dim_name : String
  rename : List (String × String)
  data : XrDataset
  cutoff : Option Int
deriving DecidableEq

/-- `NetcdfPvDataSource.__init__`: store the configuration, `_open()` the
file, and initialise the cutoff to `None`. -/
def NetcdfPvDataSource.init (fs : String → XrDataset) (path : String)
    (timestamp_dim_name id_dim_name : String)
    (rename : List (String × String)) : NetcdfPvDataSource :=
  { path := path
    timestamp_dim_name := timestamp_dim_name
    id_dim_name := id_dim_name
    rename := rename
    data := openData fs path timestamp_dim_name id_dim_name rename
    cutoff := none }

/-- The result of `Dataset.sel(pv_id=..., ts=slice(...))`: the selected id
coordinate and the selected timestamp coordinate. -/
structure Selection where
  pv_ids : List String
  tss : List Int
deriving DecidableEq

/-- Membership of a timestamp in the label slice `slice(start_ts, end_ts)`
(inclusive on both ends, an absent bound is no bound). -/
def inSlice (start_ts end_ts : Option Int) (t : Int) : Bool :=
  (start_ts.all fun s => decide (s ≤ t)) && (end_ts.all fun e => decide (t ≤ e))

/-- `NetcdfPvDataSource.get`: clamp the end of the window by the cutoff
(`end_ts = min_timestamp(self._max_ts, end_ts)`) then select the requested
ids and the timestamp slice.  A requested id absent from the store makes the
underlying selection fail with a `KeyError` naming the missing ids. -/
def NetcdfPvDataSource.get (ds : NetcdfPvDataSource) (pv_ids : List String)
    (start_ts end_ts : Option Int) : Except (List String) Selection :=
  let end_ts := min_timestamp ds.cutoff end_ts
  let missing := pv_ids.filter (fun i => !((ds.data.coordStrs "pv_id").contains i))
  if missing.isEmpty then
    .ok { pv_ids := pv_ids
          tss := (ds.data.coordInts "ts").filter (inSlice start_ts end_ts) }
  else
    .error missing

/-- `NetcdfPvDataSource.list_pv_ids`: the id coordinate values. -/
def NetcdfPvDataSource.list_pv_ids (ds : NetcdfPvDataSource) : List String :=
  ds.data.coordStrs "pv_id"

/-- `NetcdfPvDataSource.min_ts`: minimum of the timestamp coordinate,
combined with the cutoff via `min_timestamp`.  `none` models the NaT value
produced by `.min()` on an empty coordinate. -/
def NetcdfPvDataSource.min_ts (ds : NetcdfPvDataSource) : Option Int :=
  match (ds.data.coordInts "ts").min? with
  | some t => min_timestamp (some t) ds.cutoff
  | none => none

/-- `NetcdfPvDataSource.max_ts`: maximum of the timestamp coordinate,
combined with the cutoff via `min_timestamp`. -/
def NetcdfPvDataSource.max_ts (ds : NetcdfPvDataSource) : Option Int :=
  match (ds.data.coordInts "ts").max? with
  | some t => min_timestamp (some t) ds.cutoff
  | none => none

/-- `NetcdfPvDataSource.without_future`: compute
`now = ts - timedelta(minutes=blackout) - timedelta(seconds=1)`, shallow-copy
the instance (`copy.copy`), and set the copy's cutoff to
`min_timestamp(self._max_ts, now)`. -/
def NetcdfPvDataSource.without_future (ds : NetcdfPvDataSource) (ts : Int)
    (blackout : Int) : NetcdfPvDataSource :=
  let now := ts - 60 * blackout - 1
  let new_ds := ds
  { new_ds with cutoff := min_timestamp ds.cutoff (some now) }

/-- The pickled state produced by `__getstate__`: every field of the
instance except the live `_data` handle. -/
structure PvState where
  path : String
  timestamp_dim_name : String
  id_dim_name : String
  rename : List (String × String)
  cutoff : Option Int
deriving DecidableEq

/-- `NetcdfPvDataSource.__getstatic__` model: copy `__dict__` and delete
`_data`. -/
def NetcdfPvDataSource.getstate (ds : NetcdfPvDataSource) : PvState :=
  { path := ds.path
    timestamp_dim_name := ds.timestamp_dim_name
    id_dim_name := ds.id_dim_name
    rename := ds.rename
    cutoff := ds.cutoff }

/-- `NetcdfPvDataSource.__setstate__`: reassign every captured field, then
`_open()` the backing file again to reacquire the handle. -/
def NetcdfPvDataSource.setstate (fs : String → XrDataset) (s : PvState) :
    NetcdfPvDataSource :=
  { path := s.path
    timestamp_dim_name := s.timestamp_dim_name
    id_dim_name := s.id_dim_name
    rename := s.rename
    data := openData fs s.path s.timestamp_dim_name s.id_dim_name s.rename
    cutoff := s.cutoff }

/-- A heap of live instances, modelling Python object identity: a reference
is an index into the heap.  Used to state frame conditions of
`without_future`, whose `copy.copy` allocates a fresh object and whose
`_set_max_ts` mutates only that fresh copy. -/
abbrev PvHeap := List NetcdfPvDataSource

/-- `without_future` on the heap: read the receiver, allocate the shallow
copy with the narrowed cutoff, and return the heap together with the new
reference.  The receiver's own cell is written back unchanged. -/
def withoutFutureAlloc (h : PvHeap) (r : Nat) (ts blackout : Int) :
    PvHeap × Nat :=
  match h[r]? with
  | some ds => (h ++ [ds.without_future ts blackout], List.length h)
  | none => (h, r)

/-! ### Fixtures used by the witness theorems -/

/-- A concrete backing file: ids `A`, `B`; daily timestamps 1..10. -/
def fsA : String → XrDataset := fun _ =>
  ⟨[("pv_id", .strs ["A", "B"]), ("ts", .ints [1, 2, 3, 4, 5, 6, 7, 8, 9, 10])]⟩

/-- A concrete instance over `fsA`. -/
def dsA : NetcdfPvDataSource := NetcdfPvDataSource.init fsA "pv.nc" "ts" "pv_id" []

/-! ### Helper lemmas -/

instance : Std.Antisymm (fun x1 x2 : Int => x1 ≤ x2) where
  antisymm h1 h2 := le_antisymm h1 h2

theorem le_max?_of_mem {l : List Int} {M t : Int} (h : l.max? = some M)
    (ht : t ∈ l) : t ≤ M :=
  ((List.max?_eq_some_iff (fun x => le_refl x) (fun x y => max_choice x y)
    (fun _ _ _ => max_le_iff)).mp h).2 t ht

theorem max?_isSome_of_ne_nil {l : List Int} (h : l ≠ []) : ∃ M, l.max? = some M := by
  cases hM : l.max? with
  | none => exact absurd (List.max?_eq_none_iff.mp hM) h
  | some M => exact ⟨M, rfl⟩

theorem min?_isSome_of_ne_nil {l : List Int} (h : l ≠ []) : ∃ m, l.min? = some m := by
  cases hm : l.min? with
  | none => exact absurd (List.min?_eq_none_iff.mp hm) h
  | some m => exact ⟨m, rfl⟩

/-- Whatever `min_timestamp a (some x)` returns is `some` of a value `≤ x`. -/
theorem min_timestamp_some_right_le {a : Option Int} {x : Int} :
    ∃ c, min_timestamp a (some x) = some c ∧ c ≤ x := by
  cases a with
  | none => exact ⟨x, rfl, le_refl x⟩
  | some a' => exact ⟨min a' x, rfl, min_le_right a' x⟩

/-- A filter keeping only ids of the store returns the missing ids. -/
theorem missing_filter_nil {pv_ids ids : List String}
    (h : ∀ i ∈ pv_ids, i ∈ ids) :
    pv_ids.filter (fun i => !(ids.contains i)) = [] := by
  rw [List.filter_eq_nil_iff]
  intro a ha
  have hc : ids.contains a = true := List.elem_eq_true_of_mem (h a ha)
  simp [hc, h a ha]

/-! ### Claim theorems -/

/-- C7: `min_timestamp` satisfies `min_timestamp none none = none`, has `none`
as a two-sided identity, computes `min` on two concrete timestamps, and is
commutative, associative and idempotent. -/
theorem min_timestamp_algebra :
    min_timestamp none none = none ∧
    (∀ x : Option Int, min_timestamp x none = x) ∧
    (∀ x : Option Int, min_timestamp none x = x) ∧
    (∀ a b : Int, min_timestamp (some a) (some b) = some (min a b)) ∧
    (∀ x y : Option Int, min_timestamp x y = min_timestamp y x) ∧
    (∀ x y z : Option Int,
      min_timestamp (min_timestamp x y) z = min_timestamp x (min_timestamp y z)) ∧
    (∀ x : Option Int, min_timestamp x x = x) := by
  refine ⟨rfl, ?_, ?_, ?_, ?_, ?_, ?_⟩
  · intro x; cases x <;> rfl
  · intro x; cases x <;> rfl
  · intro a b; rfl
  · intro x y; cases x <;> cases y <;> simp [min_timestamp, min_comm]
  · intro x y z; cases x <;> cases y <;> cases z <;> simp [min_timestamp, min_assoc]
  · intro x; cases x <;> simp [min_timestamp]

/-- C3: `without_future` shallow-copies the instance: the result shares the
path, the dimension names, the rename table and the very same backing-store
data handle with the parent, and differs only in its cutoff, which becomes
`min_timestamp parent.cutoff (now - blackout minutes - 1 second)`. -/
theorem without_future_shallow_copy (ds : NetcdfPvDataSource) (now blackout : Int) :
    (ds.without_future now blackout).path = ds.path ∧
    (ds.without_future now blackout).timestamp_dim_name = ds.timestamp_dim_name ∧
    (ds.without_future now blackout).id_dim_name = ds.id_dim_name ∧
    (ds.without_future now blackout).rename = ds.rename ∧
    (ds.without_future now blackout).data = ds.data ∧
    (ds.without_future now blackout).cutoff =
      min_timestamp ds.cutoff (some (now - 60 * blackout - 1)) :=
  ⟨rfl, rfl, rfl, rfl, rfl, rfl⟩

/-- C8: on the object heap, `without_future` never mutates the receiver: the
receiver's cell (hence its cutoff and all observable behaviour) is unchanged,
the derived copy being allocated as a fresh object. -/
theorem without_future_alloc_preserves_receiver (h : PvHeap) (r : Nat)
    (ts blackout : Int) :
    ((withoutFutureAlloc h r ts blackout).1)[r]? = h[r]? := by
  unfold withoutFutureAlloc
  cases hr : h[r]? with
  | none => simpa using hr
  | some ds =>
    have hlt : r < h.length := by
      by_contra hge
      rw [List.getElem?_eq_none (by omega)] at hr
      cases hr
    simp only
    rw [List.getElem?_append]
    simp [hlt, hr]

/-- C6: `min_ts` returns `min_timestamp storage_min cutoff` and `max_ts`
returns `min_timestamp storage_max cutoff`; when the cutoff is at or above
the store's true maximum, `max_ts` still equals the store's true maximum. -/
theorem min_max_ts_combine (ds : NetcdfPvDataSource) (m M : Int)
    (hmin : (ds.data.coordInts "ts").min? = some m)
    (hmax : (ds.data.coordInts "ts").max? = some M) :
    ds.min_ts = min_timestamp (some m) ds.cutoff ∧
    ds.max_ts = min_timestamp (some M) ds.cutoff ∧
    (∀ c : Int, ds.cutoff = some c → M ≤ c → ds.max_ts = some M) := by
  refine ⟨?_, ?_, ?_⟩
  · simp [NetcdfPvDataSource.min_ts, hmin]
  · simp [NetcdfPvDataSource.max_ts, hmax]
  · intro c hc hMc
    simp [NetcdfPvDataSource.max_ts, hmax, hc, min_timestamp, min_eq_left hMc]

/-- C6 witness: on the concrete store the bounds are 1 and 10 and the stated
equalities hold. -/
theorem min_max_ts_combine_witness :
    ((dsA.data.coordInts "ts").min? = some 1 ∧
      (dsA.data.coordInts "ts").max? = some 10) ∧
    (dsA.min_ts = min_timestamp (some 1) dsA.cutoff ∧
      dsA.max_ts = min_timestamp (some 10) dsA.cutoff ∧
      (∀ c : Int, dsA.cutoff = some c → 10 ≤ c → dsA.max_ts = some 10)) :=
  ⟨⟨rfl, rfl⟩, min_max_ts_combine dsA 1 10 rfl rfl⟩

/-- C2: for a non-empty store, the derived instance
`ds.without_future now blackout` has `max_ts ≤ now - blackout minutes - 1
second`: the boundary at `now` is strict. -/
theorem without_future_max_ts_bound (ds : NetcdfPvDataSource) (now blackout : Int)
    (hne : ds.data.coordInts "ts" ≠ []) :
    ∃ m, (ds.without_future now blackout).max_ts = some m ∧
      m ≤ now - 60 * blackout - 1 := by
  obtain ⟨M, hM⟩ := max?_isSome_of_ne_nil hne
  have hcut : (ds.without_future now blackout).cutoff
      = min_timestamp ds.cutoff (some (now - 60 * blackout - 1)) := rfl
  obtain ⟨c, hc, hcle⟩ :=
    min_timestamp_some_right_le (a := ds.cutoff) (x := now - 60 * blackout - 1)
  refine ⟨min M c, ?_, le_trans (min_le_right M c) hcle⟩
  have hdata : (ds.without_future now blackout).data = ds.data := rfl
  have hstep : (ds.without_future now blackout).max_ts
      = min_timestamp (some M)
          (min_timestamp ds.cutoff (some (now - 60 * blackout - 1))) := by
    simp only [NetcdfPvDataSource.max_ts, hdata, hM, hcut]
  rw [hstep, hc]
  simp [min_timestamp]

/-- C2 witness: on the concrete store with `now = 5`, `blackout = 0` the
visible maximum drops to a value at most `4`. -/
theorem without_future_max_ts_bound_witness :
    dsA.data.coordInts "ts" ≠ [] ∧
    ∃ m, (dsA.without_future 5 0).max_ts = some m ∧ m ≤ 5 - 60 * 0 - 1 :=
  ⟨by decide, without_future_max_ts_bound dsA 5 0 (by decide)⟩

/-- A timestamp accepted by the slice whose end was clamped by the cutoff is
above the start and below the requested end and the cutoff whenever each of
those bounds is present. -/
theorem inSlice_clamped_bounds {cutoff end_ts start_ts : Option Int} {t : Int}
    (h : inSlice start_ts (min_timestamp cutoff end_ts) t = true) :
    (∀ s, start_ts = some s → s ≤ t) ∧
    (∀ e, end_ts = some e → t ≤ e) ∧
    (∀ c, cutoff = some c → t ≤ c) := by
  unfold inSlice at h
  rw [Bool.and_eq_true] at h
  obtain ⟨h1, h2⟩ := h
  refine ⟨?_, ?_, ?_⟩
  · intro s hs
    subst hs
    simpa using h1
  · intro e he
    subst he
    cases cutoff <;> simp [min_timestamp] at h2 <;> omega
  · intro c hc
    subst hc
    cases end_ts <;> simp [min_timestamp] at h2 <;> omega

/-- C1: every timestamp in the table returned by `get(ids, start, end)` is at
least `start` and at most each of `end`, the cutoff and the storage maximum
(absent bounds are unbounded), hence at most
`min(end, min(storage_max_ts, cutoff))`. -/
theorem get_timestamp_bounds (ds : NetcdfPvDataSource) (pv_ids : List String)
    (start_ts end_ts : Option Int) (res : Selection)
    (h : ds.get pv_ids start_ts end_ts = .ok res) :
    ∀ t ∈ res.tss,
      (∀ s, start_ts = some s → s ≤ t) ∧
      (∀ e, end_ts = some e → t ≤ e) ∧
      (∀ c, ds.cutoff = some c → t ≤ c) ∧
      (∀ M, (ds.data.coordInts "ts").max? = some M → t ≤ M) := by
  unfold NetcdfPvDataSource.get at h
  simp only at h
  split at h
  case isTrue =>
    cases h
    intro t ht
    rw [List.mem_filter] at ht
    obtain ⟨htmem, hslice⟩ := ht
    obtain ⟨hs, he, hc⟩ := inSlice_clamped_bounds hslice
    exact ⟨hs, he, hc, fun M hM => le_max?_of_mem hM htmem⟩
  case isFalse =>
    cases h

/-- C1 witness: a concrete successful query and the bounds it satisfies. -/
theorem get_timestamp_bounds_witness :
    dsA.get ["A"] (some 3) (some 5) = .ok ⟨["A"], [3, 4, 5]⟩ ∧
    ∀ t ∈ (Selection.mk ["A"] [3, 4, 5]).tss,
      (∀ s, (some (3 : Int)) = some s → s ≤ t) ∧
      (∀ e, (some (5 : Int)) = some e → t ≤ e) ∧
      (∀ c, dsA.cutoff = some c → t ≤ c) ∧
      (∀ M, (dsA.data.coordInts "ts").max? = some M → t ≤ M) :=
  ⟨rfl, get_timestamp_bounds dsA ["A"] (some 3) (some 5) ⟨["A"], [3, 4, 5]⟩ rfl⟩

/-- C9: a query over existing ids whose start lies beyond the clamped end
`min_timestamp cutoff end` does not error and returns the requested ids with
an empty timestamp axis. -/
theorem get_inverted_window_empty (ds : NetcdfPvDataSource) (pv_ids : List String)
    (start_ts end_ts : Option Int) (s e' : Int)
    (hids : ∀ i ∈ pv_ids, i ∈ ds.list_pv_ids)
    (hstart : start_ts = some s)
    (heff : min_timestamp ds.cutoff end_ts = some e')
    (hlt : e' < s) :
    ds.get pv_ids start_ts end_ts = .ok ⟨pv_ids, []⟩ := by
  have hmiss : pv_ids.filter (fun i => !((ds.data.coordStrs "pv_id").contains i)) = [] :=
    missing_filter_nil hids
  have hfilter : (ds.data.coordInts "ts").filter
      (inSlice start_ts (min_timestamp ds.cutoff end_ts)) = [] := by
    rw [List.filter_eq_nil_iff]
    intro t _
    subst hstart
    rw [heff]
    simp only [inSlice, Bool.and_eq_true, Option.all_some, decide_eq_true_eq, not_and]
    intro hst
    omega
  simp [NetcdfPvDataSource.get, hmiss, hfilter]
  exact hids

/-- C9 witness: querying `[8, 3]` on the concrete store returns the empty
well-formed table for id `A`. -/
theorem get_inverted_window_empty_witness :
    (∀ i ∈ ["A"], i ∈ dsA.list_pv_ids) ∧
    min_timestamp dsA.cutoff (some 3) = some 3 ∧ (3 : Int) < 8 ∧
    dsA.get ["A"] (some 8) (some 3) = .ok ⟨["A"], []⟩ :=
  ⟨by decide, rfl, by decide,
    get_inverted_window_empty dsA ["A"] (some 8) (some 3) 8 3 (by decide) rfl rfl
      (by decide)⟩

/-- C5: `get` with an id absent from the backing store fails with an error
naming the missing ids, and the instance stays usable: any later `get` over
ids that do exist succeeds with the expected table. -/
theorem get_notfound_and_recovery (ds : NetcdfPvDataSource) (pv_ids : List String)
    (start_ts end_ts : Option Int) (x : String)
    (hx : x ∈ pv_ids) (hxmiss : x ∉ ds.list_pv_ids) :
    (∃ missing, ds.get pv_ids start_ts end_ts = .error missing ∧
        missing ≠ [] ∧ x ∈ missing ∧ ∀ i ∈ missing, i ∉ ds.list_pv_ids) ∧
    (∀ ids2 start2 end2, (∀ i ∈ ids2, i ∈ ds.list_pv_ids) →
        ds.get ids2 start2 end2 =
          .ok ⟨ids2, (ds.data.coordInts "ts").filter
            (inSlice start2 (min_timestamp ds.cutoff end2))⟩) := by
  constructor
  · have hcx : (ds.data.coordStrs "pv_id").contains x = false := by
      cases hc : (ds.data.coordStrs "pv_id").contains x with
      | false => rfl
      | true => exact absurd (List.mem_of_elem_eq_true hc) hxmiss
    have hxm : x ∈ pv_ids.filter (fun i => !((ds.data.coordStrs "pv_id").contains i)) := by
      rw [List.mem_filter]
      refine ⟨hx, ?_⟩
      simp only [Bool.not_eq_true']
      exact hcx
    have hne : pv_ids.filter (fun i => !((ds.data.coordStrs "pv_id").contains i)) ≠ [] :=
      List.ne_nil_of_mem hxm
    have hie : (pv_ids.filter
        (fun i => !((ds.data.coordStrs "pv_id").contains i))).isEmpty = false := by
      cases hi : (pv_ids.filter
          (fun i => !((ds.data.coordStrs "pv_id").contains i))).isEmpty with
      | false => rfl
      | true => exact absurd (List.isEmpty_iff.mp hi) hne
    refine ⟨pv_ids.filter (fun i => !((ds.data.coordStrs "pv_id").contains i)),
      ?_, hne, hxm, ?_⟩
    · simp [NetcdfPvDataSource.get, hie]
      exact ⟨x, hx, hxmiss⟩
    · intro i hi
      rw [List.mem_filter] at hi
      obtain ⟨_, hni⟩ := hi
      simp only [Bool.not_eq_true'] at hni
      intro hmem
      have hct : (ds.data.coordStrs "pv_id").contains i = true :=
        List.elem_eq_true_of_mem hmem
      rw [hct] at hni
      cases hni
  · intro ids2 start2 end2 hall
    have h0 : ids2.filter (fun i => !((ds.data.coordStrs "pv_id").contains i)) = [] :=
      missing_filter_nil hall
    simp [NetcdfPvDataSource.get, h0]
    exact hall

/-- C5 witness: querying the unknown id `C` fails naming it, and the instance
still answers queries over existing ids. -/
theorem get_notfound_and_recovery_witness :
    ("C" ∈ ["C"] ∧ "C" ∉ dsA.list_pv_ids) ∧
    ((∃ missing, dsA.get ["C"] none none = .error missing ∧
        missing ≠ [] ∧ "C" ∈ missing ∧ ∀ i ∈ missing, i ∉ dsA.list_pv_ids) ∧
      (∀ ids2 start2 end2, (∀ i ∈ ids2, i ∈ dsA.list_pv_ids) →
          dsA.get ids2 start2 end2 =
            .ok ⟨ids2, (dsA.data.coordInts "ts").filter
              (inSlice start2 (min_timestamp dsA.cutoff end2))⟩)) :=
  ⟨⟨by decide, by decide⟩,
    get_notfound_and_recovery dsA ["C"] none none "C" (by decide) (by decide)⟩

/-- C4: for an instance whose handle was opened from its recorded
configuration, restoring the snapshot rebuilds an instance equal to the
original — hence observationally identical for `list_pv_ids`, `min_ts`,
`max_ts` and `get` — and the snapshot itself keeps every field except the
live data handle. -/
theorem snapshot_restore_roundtrip (fs : String → XrDataset)
    (ds : NetcdfPvDataSource)
    (hopen : ds.data = openData fs ds.path ds.timestamp_dim_name ds.id_dim_name ds.rename) :
    NetcdfPvDataSource.setstate fs ds.getstate = ds ∧
    (NetcdfPvDataSource.setstate fs ds.getstate).list_pv_ids = ds.list_pv_ids ∧
    (NetcdfPvDataSource.setstate fs ds.getstate).min_ts = ds.min_ts ∧
    (NetcdfPvDataSource.setstate fs ds.getstate).max_ts = ds.max_ts ∧
    (∀ ids start_ts end_ts,
      (NetcdfPvDataSource.setstate fs ds.getstate).get ids start_ts end_ts =
        ds.get ids start_ts end_ts) ∧
    ds.getstate.path = ds.path ∧
    ds.getstate.timestamp_dim_name = ds.timestamp_dim_name ∧
    ds.getstate.id_dim_name = ds.id_dim_name ∧
    ds.getstate.rename = ds.rename ∧
    ds.getstate.cutoff = ds.cutoff := by
  have heq : NetcdfPvDataSource.setstate fs ds.getstate = ds := by
    cases ds with
    | mk p td idd rn dat cut =>
      simp only [NetcdfPvDataSource.setstate, NetcdfPvDataSource.getstate] at hopen ⊢
      simp_all
  exact ⟨heq, by rw [heq], by rw [heq], by rw [heq], fun ids s e => by rw [heq],
    rfl, rfl, rfl, rfl, rfl⟩

/-- C4 witness: the round trip on the concrete instance. -/
theorem snapshot_restore_roundtrip_witness :
    dsA.data = openData fsA dsA.path dsA.timestamp_dim_name dsA.id_dim_name dsA.rename ∧
    NetcdfPvDataSource.setstate fsA dsA.getstate = dsA :=
  ⟨rfl, (snapshot_restore_roundtrip fsA dsA rfl).1⟩

/-- C10: a negative blackout is accepted: the derived cutoff is
`min_timestamp parent.cutoff (now + |blackout| minutes - 1 second)`, a point
strictly after `now`, and whenever the parent cutoff permits it, `get` on the
derived instance returns observations dated after `now`. -/
theorem without_future_negative_blackout (ds : NetcdfPvDataSource)
    (now blackout t : Int) (pv_ids : List String)
    (hb : blackout < 0)
    (hperm : ∀ c, ds.cutoff = some c → t ≤ c)
    (ht : t ∈ ds.data.coordInts "ts")
    (hnow : now < t)
    (hle : t ≤ now - 60 * blackout - 1)
    (hids : ∀ i ∈ pv_ids, i ∈ ds.list_pv_ids) :
    (ds.without_future now blackout).cutoff =
      min_timestamp ds.cutoff (some (now - 60 * blackout - 1)) ∧
    now < now - 60 * blackout - 1 ∧
    ∃ res, (ds.without_future now blackout).get pv_ids none none = .ok res ∧
      t ∈ res.tss ∧ now < t := by
  have hstrict : now < now - 60 * blackout - 1 := by omega
  refine ⟨rfl, hstrict, ?_⟩
  have hmiss : pv_ids.filter
      (fun i => !(((ds.without_future now blackout).data.coordStrs "pv_id").contains i)) = [] :=
    missing_filter_nil hids
  refine ⟨⟨pv_ids, (ds.data.coordInts "ts").filter
      (inSlice none (min_timestamp (ds.without_future now blackout).cutoff none))⟩, ?_, ?_, hnow⟩
  · have hdata : (ds.without_future now blackout).data = ds.data := rfl
    have hids2 : ∀ i ∈ pv_ids, i ∈ ds.data.coordStrs "pv_id" := hids
    simp [NetcdfPvDataSource.get, hdata]
    exact hids2
  · rw [List.mem_filter]
    refine ⟨ht, ?_⟩
    have hcut : (ds.without_future now blackout).cutoff =
        min_timestamp ds.cutoff (some (now - 60 * blackout - 1)) := rfl
    rw [hcut]
    cases hdc : ds.cutoff with
    | none =>
      simp [inSlice, min_timestamp]
      omega
    | some c =>
      have := hperm c hdc
      simp [inSlice, min_timestamp]
      omega

/-- C10 witness: `blackout = -1` at `now = 2` lets the derived instance
return the observation at timestamp 3. -/
theorem without_future_negative_blackout_witness :
    ((-1 : Int) < 0 ∧ (3 : Int) ∈ dsA.data.coordInts "ts" ∧ (2 : Int) < 3 ∧
      (3 : Int) ≤ 2 - 60 * (-1) - 1 ∧ ∀ i ∈ ["A"], i ∈ dsA.list_pv_ids) ∧
    ((dsA.without_future 2 (-1)).cutoff =
        min_timestamp dsA.cutoff (some (2 - 60 * (-1) - 1)) ∧
      (2 : Int) < 2 - 60 * (-1) - 1 ∧
      ∃ res, (dsA.without_future 2 (-1)).get ["A"] none none = .ok res ∧
        (3 : Int) ∈ res.tss ∧ (2 : Int) < 3) :=
  ⟨⟨by decide, by decide, by decide, by decide, by decide⟩,
    without_future_negative_blackout dsA 2 (-1) 3 ["A"] (by decide)
      (fun c hc => Option.noConfusion hc) (by decide) (by decide) (by decide)
      (by decide)⟩
